import Mathlib

/-!
# Verification of the CORD-19 explorer pipeline

A shallow embedding of the data pipeline in `cord19_app.py`: loading the
metadata table, deriving the `year` column, filtering by a year range, and
the aggregations (publications per year, top journals, most frequent title
words, counts by source).  Pandas/`Counter` operations are modelled as pure
Lean functions on lists.
-/

/-- One raw CSV row of `metadata.csv`.  A `none` field models a missing
(NaN) cell as produced by `pd.read_csv`. -/
structure RawRow where
  title : Option String
  publish_time : Option String
  journal : Option String
  abstract : Option String
  source_x : Option String
deriving DecidableEq, Repr

/-- One row of the loaded dataframe after `load_data`: `publish_time` has
been parsed (`errors='coerce'`), `year` extracted (`none` models NaN from an
unparseable date) and `abstract_word_count` derived. -/
structure Record where
  title : String
  year : Option Int
  journal : Option String
  abstract : Option String
  source_x : Option String
  abstract_word_count : Nat
deriving DecidableEq, Repr

/-- Python's `str.split()` with no separator: split on whitespace runs and
drop empty tokens.  Accumulator-based scan over the characters. -/
def splitWSAux : List Char → List Char → List (List Char)
  | [], acc => if acc = [] then [] else [acc.reverse]
  | c :: cs, acc =>
    if c.isWhitespace then
      if acc = [] then splitWSAux cs [] else acc.reverse :: splitWSAux cs []
    else splitWSAux cs (c :: acc)

/-- Python's `s.split()` on a string. -/
def pySplit (s : String) : List String :=
  (splitWSAux s.toList []).map List.asString

/-- Python's `str.lower()` (modelled characterwise by `Char.toLower`). -/
def pyLower (s : String) : String :=
  (s.toList.map Char.toLower).asString

/-- The row transformation of `load_data` (lines 29–33): parse
`publish_time` with the supplied date parser (only the extracted year
matters downstream, so the parser is modelled as `String → Option Int`),
derive `year`, and derive `abstract_word_count` from
`df['abstract'].fillna('').apply(lambda x: len(x.split()))`. -/
def mkRecord (parseYear : String → Option Int) (r : RawRow) : Record :=
  { title := r.title.getD ""
    year := r.publish_time.bind parseYear
    journal := r.journal
    abstract := r.abstract
    source_x := r.source_x
    abstract_word_count := (pySplit (r.abstract.getD "")).length }

/-- `load_data` (lines 24–34): `df.dropna(subset=['title', 'publish_time'])`
followed by the per-row derivations of `mkRecord`. -/
def load_data (parseYear : String → Option Int) (rows : List RawRow) :
    List Record :=
  (rows.filter (fun r => r.title.isSome && r.publish_time.isSome)).map
    (mkRecord parseYear)

/-- The boolean mask `(df['year'] >= lo) & (df['year'] <= hi)` of line 51.
A NaN year compares false on both sides, exactly as in pandas. -/
def inRangeMask (lo hi : Int) (r : Record) : Bool :=
  (match r.year with
   | some y => decide (lo ≤ y)
   | none => false) &&
  (match r.year with
   | some y => decide (y ≤ hi)
   | none => false)

/-- `filtered_df = df[(df['year'] >= year_range[0]) & (df['year'] <= year_range[1])]`
(line 51): row selection by the boolean mask, preserving row order. -/
def filtered_df (df : List Record) (lo hi : Int) : List Record :=
  df.filter (inRangeMask lo hi)

/-- Claim-side predicate, written from the spec's words: keep a record iff
its `year` is defined and satisfies `lo ≤ year ≤ hi`.  Compared with the
mask actually computed by line 51. -/
def specKeep (lo hi : Int) (r : Record) : Bool :=
  match r.year with
  | some y => decide (lo ≤ y) && decide (y ≤ hi)
  | none => false

/-- The defined years of a table, in row order (pandas aggregations on the
`year` column skip NaN). -/
def yearsOf (df : List Record) : List Int :=
  df.filterMap (fun r => r.year)

/-- `min_year = int(df['year'].min())` (line 41): `Series.min` skips NaN;
`none` models the `ValueError` that `int(...)` raises when the minimum is
NaN (no row has a defined year). -/
def min_year (df : List Record) : Option Int :=
  (yearsOf df).min?

/-- `max_year = int(df['year'].max())` (line 42), analogously. -/
def max_year (df : List Record) : Option Int :=
  (yearsOf df).max?

/-- Lines 41–42 together: the slider bounds; `none` when either conversion
raises, which happens before any filtering is executed. -/
def year_bounds (df : List Record) : Option (Int × Int) :=
  match min_year df, max_year df with
  | some a, some b => some (a, b)
  | _, _ => none

/-- Distinct values of a list in order of first occurrence: the key order of
a Python `dict`/`Counter` and of the pandas `value_counts` hash table. -/
def dedupFirst {α : Type} [DecidableEq α] : List α → List α
  | [] => []
  | x :: xs => x :: dedupFirst (xs.filter (fun y => y ≠ x))
termination_by l => l.length
decreasing_by
  exact Nat.lt_succ_of_le (List.length_filter_le _ _)

/-- The (value, multiplicity) pairs of a list, keys in first-occurrence
order: the content of `Counter(vals)` / of the `value_counts` hash table
before sorting. -/
def countsList {α : Type} [DecidableEq α] (vals : List α) : List (α × Nat) :=
  (dedupFirst vals).map (fun v => (v, vals.count v))

/-- Descending-count comparison used by `value_counts` and
`Counter.most_common`. -/
abbrev byCountDesc {α : Type} (p q : α × Nat) : Prop := q.2 ≤ p.2

instance {α : Type} : IsTotal (α × Nat) byCountDesc :=
  ⟨fun a b => Nat.le_total b.2 a.2⟩

instance {α : Type} : IsTrans (α × Nat) byCountDesc :=
  ⟨fun _ _ _ h1 h2 => Nat.le_trans h2 h1⟩

/-- `Series.value_counts()` (dropna, counts of distinct values sorted by
descending count) and equally `Counter.most_common` without the cutoff: a
stable descending sort, so ties keep first-occurrence order. -/
def value_counts {α : Type} [DecidableEq α] (vals : List α) : List (α × Nat) :=
  List.insertionSort byCountDesc (countsList vals)

/-- Ascending-key comparison used by `.sort_index()`. -/
abbrev byKeyAsc (p q : Int × Nat) : Prop := p.1 ≤ q.1

instance : IsTotal (Int × Nat) byKeyAsc :=
  ⟨fun a b => Int.le_total a.1 b.1⟩

instance : IsTrans (Int × Nat) byKeyAsc :=
  ⟨fun _ _ _ h1 h2 => Int.le_trans h1 h2⟩

/-- `.sort_index()` on an integer-keyed count series. -/
def sort_index (l : List (Int × Nat)) : List (Int × Nat) :=
  List.insertionSort byKeyAsc l

/-- `year_counts = filtered_df['year'].value_counts().sort_index()`
(line 59). -/
def year_counts (f : List Record) : List (Int × Nat) :=
  sort_index (value_counts (yearsOf f))

/-- The defined journal values of a table in row order (`value_counts`
drops NaN). -/
def journalsOf (f : List Record) : List String :=
  f.filterMap (fun r => r.journal)

/-- `top_journals = filtered_df['journal'].value_counts().head(10)`
(line 72). -/
def top_journals (f : List Record) : List (String × Nat) :=
  (value_counts (journalsOf f)).take 10

/-- Lines 85–86: `titles = filtered_df['title'].dropna().str.lower().str.split()`
flattened into `all_words`.  Titles are never NaN after `load_data`, so the
`dropna()` is the identity here. -/
def all_words (f : List Record) : List String :=
  (f.map (fun r => pySplit (pyLower r.title))).flatten

/-- `word_freq = Counter(all_words)` (line 87): multiplicities keyed in
first-encounter order. -/
def word_freq (f : List Record) : List (String × Nat) :=
  countsList (all_words f)

/-- `common_words = word_freq.most_common(20)` (line 88): stable descending
sort by count, then the first 20. -/
def common_words (f : List Record) : List (String × Nat) :=
  (List.insertionSort byCountDesc (word_freq f)).take 20

/-- `words, counts = zip(*common_words)` (line 90): unpacking `zip(*l)`
into two names succeeds only when `l` is nonempty; on the empty list
`zip()` yields no tuples and the unpacking raises `ValueError`, modelled
by `none`. -/
def zipStarUnpack {α β : Type} (l : List (α × β)) : Option (List α × List β) :=
  match l with
  | [] => none
  | l => some l.unzip

/-- The column name line 108 groups by for the source distribution. -/
def source_group_column : String := "source_x"

/-- The defined source values of a table in row order. -/
def sourcesOf (f : List Record) : List String :=
  f.filterMap (fun r => r.source_x)

/-- `filtered_df['source_x'].value_counts()` (line 108). -/
def source_counts (f : List Record) : List (String × Nat) :=
  value_counts (sourcesOf f)

/-! ## Helper lemmas -/

theorem mem_dedupFirst {α : Type} [DecidableEq α] (a : α) (l : List α) :
    a ∈ dedupFirst l ↔ a ∈ l := by
  induction l using dedupFirst.induct with
  | case1 => simp [dedupFirst]
  | case2 x xs ih =>
    rw [dedupFirst]
    simp only [List.mem_cons, ih, List.mem_filter, ne_eq, decide_eq_true_eq]
    by_cases h : a = x <;> simp [h]

theorem nodup_dedupFirst {α : Type} [DecidableEq α] (l : List α) :
    (dedupFirst l).Nodup := by
  induction l using dedupFirst.induct with
  | case1 => simp [dedupFirst]
  | case2 x xs ih =>
    rw [dedupFirst]
    refine List.Nodup.cons ?_ ih
    intro hx
    have := (mem_dedupFirst x _).mp hx
    simp [List.mem_filter] at this

theorem count_add_length_filter_ne {α : Type} [DecidableEq α] (x : α)
    (xs : List α) :
    xs.count x + (xs.filter (fun y => y ≠ x)).length = xs.length := by
  induction xs with
  | nil => simp
  | cons a xs ih =>
    by_cases h : a = x
    · subst h
      simp only [List.count_cons_self, List.filter_cons]
      rw [if_neg (by simp)]
      simp only [List.length_cons]
      omega
    · rw [List.count_cons_of_ne (fun hh => h hh.symm)]
      simp only [List.filter_cons]
      rw [if_pos (by simp [h])]
      simp only [List.length_cons]
      omega

theorem sum_dedupFirst_count {α : Type} [DecidableEq α] (l : List α) :
    ((dedupFirst l).map (fun v => l.count v)).sum = l.length := by
  induction l using dedupFirst.induct with
  | case1 => simp [dedupFirst]
  | case2 x xs ih =>
    rw [dedupFirst]
    simp only [List.map_cons, List.sum_cons]
    have hmap : (dedupFirst (xs.filter (fun y => y ≠ x))).map
          (fun v => (x :: xs).count v)
        = (dedupFirst (xs.filter (fun y => y ≠ x))).map
          (fun v => (xs.filter (fun y => y ≠ x)).count v) := by
      apply List.map_congr_left
      intro v hv
      have hvmem := (mem_dedupFirst v _).mp hv
      rw [List.mem_filter] at hvmem
      have hvx : v ≠ x := by
        have := hvmem.2
        simpa using this
      rw [List.count_cons_of_ne hvx]
      rw [List.count_filter (by simp [hvx])]
    rw [hmap, ih, List.count_cons_self]
    have := count_add_length_filter_ne x xs
    simp only [List.length_cons]
    omega

theorem map_fst_countsList {α : Type} [DecidableEq α] (vals : List α) :
    (countsList vals).map Prod.fst = dedupFirst vals := by
  simp [countsList, List.map_map, Function.comp_def]

theorem mem_countsList {α : Type} [DecidableEq α] (p : α × Nat)
    (vals : List α) :
    p ∈ countsList vals ↔ p.1 ∈ vals ∧ p.2 = vals.count p.1 := by
  constructor
  · intro hp
    rcases List.mem_map.mp hp with ⟨v, hv, hev⟩
    cases hev
    exact ⟨(mem_dedupFirst v vals).mp hv, rfl⟩
  · rintro ⟨h1, h2⟩
    refine List.mem_map.mpr ⟨p.1, (mem_dedupFirst p.1 vals).mpr h1, ?_⟩
    cases p with
    | mk a n =>
      simp at h2
      simp [h2]

theorem sum_snd_countsList {α : Type} [DecidableEq α] (vals : List α) :
    ((countsList vals).map (fun p => p.2)).sum = vals.length := by
  rw [countsList, List.map_map]
  simpa [Function.comp] using sum_dedupFirst_count vals

theorem count_filterMap_eq_countP {α β : Type} [DecidableEq β]
    (g : α → Option β) (l : List α) (b : β) :
    (l.filterMap g).count b = l.countP (fun r => g r == some b) := by
  induction l with
  | nil => simp
  | cons a l ih =>
    rw [List.filterMap_cons]
    cases hg : g a with
    | none =>
      rw [List.countP_cons]
      simp [hg, ih]
    | some v =>
      rw [List.countP_cons, List.count_cons]
      simp [hg, ih]

theorem length_filterMap_of_isSome {α β : Type} (g : α → Option β)
    (l : List α) (h : ∀ r ∈ l, (g r).isSome) :
    (l.filterMap g).length = l.length := by
  induction l with
  | nil => simp
  | cons a l ih =>
    rw [List.filterMap_cons]
    cases hg : g a with
    | none =>
      have := h a (List.mem_cons_self a l)
      rw [hg] at this
      simp at this
    | some v =>
      simp only [List.length_cons]
      rw [ih (fun r hr => h r (List.mem_cons_of_mem a hr))]

theorem filterMap_filter_isSome {α β : Type} (g : α → Option β)
    (l : List α) :
    (l.filter (fun r => (g r).isSome)).filterMap g = l.filterMap g := by
  induction l with
  | nil => simp
  | cons a l ih =>
    rw [List.filter_cons]
    cases hg : g a with
    | none =>
      rw [if_neg (by simp [hg])]
      rw [List.filterMap_cons, hg, ih]
    | some v =>
      rw [if_pos (by simp [hg])]
      rw [List.filterMap_cons, List.filterMap_cons, hg, ih]

theorem filter_orderedInsert_count {α : Type} (x : α × Nat)
    (l : List (α × Nat)) (c : Nat) :
    (List.orderedInsert byCountDesc x l).filter (fun p => p.2 == c)
      = (if x.2 = c then [x] else []) ++ l.filter (fun p => p.2 == c) := by
  induction l with
  | nil =>
    simp only [List.orderedInsert, List.filter_cons, List.filter_nil]
    by_cases h : x.2 = c <;> simp [h]
  | cons y ys ih =>
    simp only [List.orderedInsert]
    by_cases h : byCountDesc x y
    · rw [if_pos h]
      simp only [List.filter_cons]
      by_cases hx : x.2 = c <;> simp [hx]
    · rw [if_neg h]
      simp only [List.filter_cons]
      by_cases hy : y.2 = c
      · have hxc : ¬ x.2 = c := by
          intro hxc
          exact h (by simp [byCountDesc, hxc, hy])
        simp only [ih]
        simp [hy, hxc]
      · simp only [ih]
        simp [hy]

theorem filter_insertionSort_count {α : Type} (l : List (α × Nat)) (c : Nat) :
    (List.insertionSort byCountDesc l).filter (fun p => p.2 == c)
      = l.filter (fun p => p.2 == c) := by
  induction l with
  | nil => rfl
  | cons x xs ih =>
    simp only [List.insertionSort]
    rw [filter_orderedInsert_count, ih, List.filter_cons]
    by_cases h : x.2 = c <;> simp [h]

theorem value_counts_perm {α : Type} [DecidableEq α] (vals : List α) :
    (value_counts vals).Perm (countsList vals) :=
  List.perm_insertionSort byCountDesc (countsList vals)

theorem mem_value_counts {α : Type} [DecidableEq α] (p : α × Nat)
    (vals : List α) :
    p ∈ value_counts vals ↔ p.1 ∈ vals ∧ p.2 = vals.count p.1 := by
  rw [(value_counts_perm vals).mem_iff]
  exact mem_countsList p vals

theorem sorted_value_counts {α : Type} [DecidableEq α] (vals : List α) :
    (value_counts vals).Pairwise byCountDesc :=
  List.sorted_insertionSort byCountDesc (countsList vals)

theorem sum_snd_value_counts {α : Type} [DecidableEq α] (vals : List α) :
    ((value_counts vals).map (fun p => p.2)).sum = vals.length := by
  rw [((value_counts_perm vals).map (fun p => p.2)).sum_eq]
  exact sum_snd_countsList vals

theorem year_counts_perm (f : List Record) :
    (year_counts f).Perm (countsList (yearsOf f)) := by
  unfold year_counts sort_index
  exact (List.perm_insertionSort byKeyAsc _).trans (value_counts_perm _)

theorem mem_year_counts (p : Int × Nat) (f : List Record) :
    p ∈ year_counts f ↔ p.1 ∈ yearsOf f ∧ p.2 = (yearsOf f).count p.1 := by
  rw [(year_counts_perm f).mem_iff]
  exact mem_countsList p (yearsOf f)

theorem sorted_keys_year_counts (f : List Record) :
    (year_counts f).Pairwise (fun p q => p.1 < q.1) := by
  have hs : (year_counts f).Pairwise byKeyAsc :=
    List.sorted_insertionSort byKeyAsc (value_counts (yearsOf f))
  have hn : ((year_counts f).map Prod.fst).Nodup := by
    have hperm : ((year_counts f).map Prod.fst).Perm (dedupFirst (yearsOf f)) := by
      rw [← map_fst_countsList (yearsOf f)]
      exact (year_counts_perm f).map Prod.fst
    exact hperm.symm.nodup (nodup_dedupFirst (yearsOf f))
  have hne : (year_counts f).Pairwise (fun p q => p.1 ≠ q.1) :=
    (List.pairwise_map.mp hn)
  exact (hs.and hne).imp (fun h => lt_of_le_of_ne h.1 h.2)

theorem sum_snd_year_counts (f : List Record) :
    ((year_counts f).map (fun p => p.2)).sum = (yearsOf f).length := by
  rw [((year_counts_perm f).map (fun p => p.2)).sum_eq]
  exact sum_snd_countsList (yearsOf f)

theorem inRangeMask_iff (lo hi : Int) (r : Record) :
    inRangeMask lo hi r = true ↔ ∃ y, r.year = some y ∧ lo ≤ y ∧ y ≤ hi := by
  unfold inRangeMask
  cases hr : r.year with
  | none => simp
  | some y => simp [and_assoc]

theorem inRangeMask_eq_specKeep (lo hi : Int) (r : Record) :
    inRangeMask lo hi r = specKeep lo hi r := by
  unfold inRangeMask specKeep
  cases r.year <;> simp

theorem yearsOf_filter_isSome (tbl : List Record) :
    yearsOf (tbl.filter (fun s => s.year.isSome)) = yearsOf tbl := by
  unfold yearsOf
  exact filterMap_filter_isSome (fun r => r.year) tbl

/-- C1: for every table and year range `lo ≤ hi`, line 51 returns exactly
the subsequence of records whose `year` is defined and lies in
`[lo, hi]`, in original order; no undefined-year or out-of-range record
appears. -/
theorem C1_filter_exact (df : List Record) (lo hi : Int) (h : lo ≤ hi) :
    filtered_df df lo hi = df.filter (specKeep lo hi)
    ∧ (filtered_df df lo hi).Sublist df
    ∧ ∀ r ∈ filtered_df df lo hi, ∃ y, r.year = some y ∧ lo ≤ y ∧ y ≤ hi := by
  refine ⟨?_, List.filter_sublist df, ?_⟩
  · exact List.filter_congr (fun r _ => inRangeMask_eq_specKeep lo hi r)
  · intro r hr
    have := (List.mem_filter.mp hr).2
    exact (inRangeMask_iff lo hi r).mp this

theorem C1_filter_exact_witness :
    (2020 : Int) ≤ 2021 ∧
    (filtered_df [Record.mk "a" (some 2019) none none none 0,
        Record.mk "b" none none none none 0,
        Record.mk "c" (some 2020) none none none 0] 2020 2021
      = List.filter (specKeep 2020 2021)
          [Record.mk "a" (some 2019) none none none 0,
           Record.mk "b" none none none none 0,
           Record.mk "c" (some 2020) none none none 0]
    ∧ (filtered_df [Record.mk "a" (some 2019) none none none 0,
        Record.mk "b" none none none none 0,
        Record.mk "c" (some 2020) none none none 0] 2020 2021).Sublist
          [Record.mk "a" (some 2019) none none none 0,
           Record.mk "b" none none none none 0,
           Record.mk "c" (some 2020) none none none 0]
    ∧ ∀ r ∈ filtered_df [Record.mk "a" (some 2019) none none none 0,
        Record.mk "b" none none none none 0,
        Record.mk "c" (some 2020) none none none 0] 2020 2021,
        ∃ y, r.year = some y ∧ 2020 ≤ y ∧ y ≤ 2021) :=
  ⟨by decide,
   C1_filter_exact
     [Record.mk "a" (some 2019) none none none 0,
      Record.mk "b" none none none none 0,
      Record.mk "c" (some 2020) none none none 0] 2020 2021 (by decide)⟩

/-- C7: filtering an already-filtered table with the same range returns
the same table (even as a list, not merely as a set). -/
theorem C7_filter_idempotent (df : List Record) (lo hi : Int) :
    filtered_df (filtered_df df lo hi) lo hi = filtered_df df lo hi := by
  unfold filtered_df
  rw [List.filter_filter]
  exact List.filter_congr (fun x _ => by simp)

/-- C8: a row whose `publish_time` is present but unparseable survives
`load_data` with an undefined `year`, is excluded from every filtered
table, and contributes nothing to the year histogram. -/
theorem C8_unparseable_row (parseYear : String → Option Int)
    (rows : List RawRow) (r : RawRow) (t p : String)
    (hr : r ∈ rows) (ht : r.title = some t) (hp : r.publish_time = some p)
    (hfail : parseYear p = none) :
    mkRecord parseYear r ∈ load_data parseYear rows
    ∧ (mkRecord parseYear r).year = none
    ∧ (∀ lo hi, mkRecord parseYear r ∉ filtered_df (load_data parseYear rows) lo hi)
    ∧ year_counts ((load_data parseYear rows).filter (fun s => s.year.isSome))
        = year_counts (load_data parseYear rows) := by
  have hyear : (mkRecord parseYear r).year = none := by
    show r.publish_time.bind parseYear = none
    rw [hp]
    simpa using hfail
  refine ⟨?_, hyear, ?_, ?_⟩
  · unfold load_data
    exact List.mem_map.mpr
      ⟨r, List.mem_filter.mpr ⟨hr, by simp [ht, hp]⟩, rfl⟩
  · intro lo hi hmem
    have hmask := (List.mem_filter.mp hmem).2
    rw [(inRangeMask_iff lo hi _)] at hmask
    rcases hmask with ⟨y, hy, _⟩
    rw [hyear] at hy
    cases hy
  · unfold year_counts
    rw [yearsOf_filter_isSome]

theorem C8_unparseable_row_witness :
    RawRow.mk (some "t") (some "nodate") none none none
        ∈ [RawRow.mk (some "t") (some "nodate") none none none]
    ∧ (RawRow.mk (some "t") (some "nodate") none none none).title = some "t"
    ∧ (RawRow.mk (some "t") (some "nodate") none none none).publish_time
        = some "nodate"
    ∧ (fun _ : String => (none : Option Int)) "nodate" = none
    ∧ (mkRecord (fun _ => none) (RawRow.mk (some "t") (some "nodate") none none none)
        ∈ load_data (fun _ => none)
            [RawRow.mk (some "t") (some "nodate") none none none]
      ∧ (mkRecord (fun _ => none)
          (RawRow.mk (some "t") (some "nodate") none none none)).year = none
      ∧ (∀ lo hi, mkRecord (fun _ => none)
            (RawRow.mk (some "t") (some "nodate") none none none)
          ∉ filtered_df (load_data (fun _ => none)
              [RawRow.mk (some "t") (some "nodate") none none none]) lo hi)
      ∧ year_counts ((load_data (fun _ => none)
            [RawRow.mk (some "t") (some "nodate") none none none]).filter
              (fun s => s.year.isSome))
          = year_counts (load_data (fun _ => none)
              [RawRow.mk (some "t") (some "nodate") none none none])) :=
  ⟨by decide, by decide, by decide, rfl,
   C8_unparseable_row (fun _ => none)
     [RawRow.mk (some "t") (some "nodate") none none none]
     (RawRow.mk (some "t") (some "nodate") none none none)
     "t" "nodate" (by decide) (by decide) (by decide) rfl⟩

/-- C9: when no row has a defined year (or the table is empty), the slider
bound computation of lines 41–42 fails (`int(NaN)` raises) before any
filtering happens: both bounds are undefined. -/
theorem C9_year_bounds_fail (df : List Record)
    (h : ∀ r ∈ df, r.year = none) :
    min_year df = none ∧ max_year df = none ∧ year_bounds df = none := by
  have hy : yearsOf df = [] := by
    unfold yearsOf
    rw [List.filterMap_eq_nil]
    exact h
  refine ⟨?_, ?_, ?_⟩
  · unfold min_year
    rw [hy]
    rfl
  · unfold max_year
    rw [hy]
    rfl
  · unfold year_bounds min_year max_year
    rw [hy]
    rfl

theorem C9_year_bounds_fail_witness :
    (∀ r ∈ [Record.mk "t" none none none none 0], r.year = none)
    ∧ (min_year [Record.mk "t" none none none none 0] = none
      ∧ max_year [Record.mk "t" none none none none 0] = none
      ∧ year_bounds [Record.mk "t" none none none none 0] = none) :=
  ⟨by decide, C9_year_bounds_fail [Record.mk "t" none none none none 0]
    (by decide)⟩

theorem year_isSome_of_mem_filtered (df : List Record) (lo hi : Int)
    (r : Record) (hr : r ∈ filtered_df df lo hi) : r.year.isSome := by
  have := (List.mem_filter.mp hr).2
  rcases (inRangeMask_iff lo hi r).mp this with ⟨y, hy, _⟩
  rw [hy]
  rfl

theorem length_yearsOf_filtered (df : List Record) (lo hi : Int) :
    (yearsOf (filtered_df df lo hi)).length = (filtered_df df lo hi).length :=
  length_filterMap_of_isSome _ _
    (fun r hr => year_isSome_of_mem_filtered df lo hi r hr)

theorem count_yearsOf (f : List Record) (y : Int) :
    (yearsOf f).count y = (f.filter (fun r => r.year == some y)).length := by
  unfold yearsOf
  rw [count_filterMap_eq_countP]
  exact List.countP_eq_length_filter _ f

/-- C4: the year histogram of a filtered table maps each distinct defined
year to the number of filtered records with that year, is sorted strictly
ascending by year, and its counts sum to the filtered table's size. -/
theorem C4_year_histogram (df : List Record) (lo hi : Int) :
    (∀ p ∈ year_counts (filtered_df df lo hi),
        p.1 ∈ yearsOf (filtered_df df lo hi)
        ∧ p.2 = ((filtered_df df lo hi).filter
            (fun r => r.year == some p.1)).length)
    ∧ (∀ y ∈ yearsOf (filtered_df df lo hi),
        (y, ((filtered_df df lo hi).filter
            (fun r => r.year == some y)).length)
          ∈ year_counts (filtered_df df lo hi))
    ∧ (year_counts (filtered_df df lo hi)).Pairwise (fun p q => p.1 < q.1)
    ∧ ((year_counts (filtered_df df lo hi)).map (fun p => p.2)).sum
        = (filtered_df df lo hi).length := by
  refine ⟨?_, ?_, sorted_keys_year_counts _, ?_⟩
  · intro p hp
    have hm := (mem_year_counts p _).mp hp
    exact ⟨hm.1, by rw [hm.2, count_yearsOf]⟩
  · intro y hy
    apply (mem_year_counts _ _).mpr
    exact ⟨hy, (count_yearsOf _ y).symm⟩
  · rw [sum_snd_year_counts, length_yearsOf_filtered]

/-- C5: on every filtered table the top-journals list has at most 10
entries and the top-title-words list at most 20; both are sorted by
descending count; and the underlying stable sort keeps entries of equal
count in the order of the count tables, whose keys are in first-encounter
order. -/
theorem C5_topn_lists (df : List Record) (lo hi : Int) :
    (top_journals (filtered_df df lo hi)).length ≤ 10
    ∧ (common_words (filtered_df df lo hi)).length ≤ 20
    ∧ (top_journals (filtered_df df lo hi)).Pairwise byCountDesc
    ∧ (common_words (filtered_df df lo hi)).Pairwise byCountDesc
    ∧ (∀ c, (value_counts (journalsOf (filtered_df df lo hi))).filter
          (fun p => p.2 == c)
        = (countsList (journalsOf (filtered_df df lo hi))).filter
          (fun p => p.2 == c))
    ∧ (∀ c, (List.insertionSort byCountDesc
          (word_freq (filtered_df df lo hi))).filter (fun p => p.2 == c)
        = (word_freq (filtered_df df lo hi)).filter (fun p => p.2 == c))
    ∧ (countsList (journalsOf (filtered_df df lo hi))).map Prod.fst
        = dedupFirst (journalsOf (filtered_df df lo hi))
    ∧ (word_freq (filtered_df df lo hi)).map Prod.fst
        = dedupFirst (all_words (filtered_df df lo hi)) := by
  refine ⟨List.length_take_le _ _, List.length_take_le _ _, ?_, ?_, ?_, ?_,
    map_fst_countsList _, map_fst_countsList _⟩
  · exact List.Pairwise.sublist (List.take_sublist _ _) (sorted_value_counts _)
  · exact List.Pairwise.sublist (List.take_sublist _ _)
      (List.sorted_insertionSort byCountDesc _)
  · intro c
    exact filter_insertionSort_count _ c
  · intro c
    exact filter_insertionSort_count _ c

theorem journalsOf_filter_isSome (tbl : List Record) :
    journalsOf (tbl.filter (fun s => s.journal.isSome)) = journalsOf tbl := by
  unfold journalsOf
  exact filterMap_filter_isSome (fun r => r.journal) tbl

theorem count_journalsOf (f : List Record) (j : String) :
    (journalsOf f).count j
      = (f.filter (fun r => r.journal == some j)).length := by
  unfold journalsOf
  rw [count_filterMap_eq_countP]
  exact List.countP_eq_length_filter _ f

/-- C10: records with a missing `journal` are invisible to the
top-journals aggregate: dropping them changes nothing, every bucket key is
the journal of some record, and each bucket counts exactly the records
carrying that (defined) journal. -/
theorem C10_missing_journal (df : List Record) (lo hi : Int) :
    top_journals (filtered_df df lo hi)
      = top_journals ((filtered_df df lo hi).filter
          (fun r => r.journal.isSome))
    ∧ ∀ p ∈ top_journals (filtered_df df lo hi),
        (∃ r ∈ filtered_df df lo hi, r.journal = some p.1)
        ∧ p.2 = ((filtered_df df lo hi).filter
            (fun r => r.journal == some p.1)).length := by
  constructor
  · unfold top_journals
    rw [journalsOf_filter_isSome]
  · intro p hp
    have hv := (mem_value_counts p _).mp (List.mem_of_mem_take hp)
    constructor
    · exact List.mem_filterMap.mp hv.1
    · rw [hv.2, count_journalsOf]

/-- C6: the word-frequency pipeline sees only lowercased titles, so any two
tables whose titles agree after lowercasing produce identical word lists,
word frequencies and top-words lists. -/
theorem C6_case_insensitive (f g : List Record)
    (h : f.map (fun r => pyLower r.title) = g.map (fun r => pyLower r.title)) :
    all_words f = all_words g
    ∧ word_freq f = word_freq g
    ∧ common_words f = common_words g := by
  have hsplit : f.map (fun r => pySplit (pyLower r.title))
      = g.map (fun r => pySplit (pyLower r.title)) := by
    have hc := congrArg (List.map pySplit) h
    rw [List.map_map, List.map_map] at hc
    simpa [Function.comp_def] using hc
  have hw : all_words f = all_words g := by
    unfold all_words
    rw [hsplit]
  refine ⟨hw, ?_, ?_⟩
  · unfold word_freq
    rw [hw]
  · unfold common_words word_freq
    rw [hw]

theorem C6_case_insensitive_witness :
    ([Record.mk "COVID Study" (some 2020) none none none 0].map
        (fun r => pyLower r.title)
      = [Record.mk "covid study" (some 2020) none none none 0].map
        (fun r => pyLower r.title))
    ∧ (all_words [Record.mk "COVID Study" (some 2020) none none none 0]
        = all_words [Record.mk "covid study" (some 2020) none none none 0]
      ∧ word_freq [Record.mk "COVID Study" (some 2020) none none none 0]
        = word_freq [Record.mk "covid study" (some 2020) none none none 0]
      ∧ common_words [Record.mk "COVID Study" (some 2020) none none none 0]
        = common_words [Record.mk "covid study" (some 2020) none none none 0]) :=
  ⟨by decide,
   C6_case_insensitive
     [Record.mk "COVID Study" (some 2020) none none none 0]
     [Record.mk "covid study" (some 2020) none none none 0] (by decide)⟩

/-- C2 as stated is false of the code: line 108 groups the source
distribution by the column named `source_x`, not `source`. -/
theorem C2_source_column_refuted : ¬ source_group_column = "source" := by
  decide

theorem count_sourcesOf (f : List Record) (s : String) :
    (sourcesOf f).count s
      = (f.filter (fun r => r.source_x == some s)).length := by
  unfold sourcesOf
  rw [count_filterMap_eq_countP]
  exact List.countP_eq_length_filter _ f

/-- C2 amended: the source-distribution aggregate groups the filtered
records by the input column named `source_x`, counting records per
distinct defined source value. -/
theorem C2_source_column (df : List Record) (lo hi : Int) :
    source_group_column = "source_x"
    ∧ source_counts (filtered_df df lo hi)
        = value_counts (sourcesOf (filtered_df df lo hi))
    ∧ ∀ p ∈ source_counts (filtered_df df lo hi),
        (∃ r ∈ filtered_df df lo hi, r.source_x = some p.1)
        ∧ p.2 = ((filtered_df df lo hi).filter
            (fun r => r.source_x == some p.1)).length := by
  refine ⟨rfl, rfl, ?_⟩
  intro p hp
  have hv := (mem_value_counts p _).mp hp
  constructor
  · exact List.mem_filterMap.mp hv.1
  · rw [hv.2, count_sourcesOf]

/-- C3 is the intent of the spec but the script violates it: with an empty
filtered table `common_words` is the empty list and the unpacking
`words, counts = zip(*common_words)` at line 90 fails (a `ValueError` in
Python, `none` in the model), so the title-words step does not complete. -/
theorem C3_empty_filtered_crash :
    filtered_df [Record.mk "a b" (some 2020) none none none 2] 2021 2021 = []
    ∧ common_words
        (filtered_df [Record.mk "a b" (some 2020) none none none 2] 2021 2021)
        = []
    ∧ zipStarUnpack
        (common_words
          (filtered_df [Record.mk "a b" (some 2020) none none none 2]
            2021 2021))
        = none := by
  have h1 : filtered_df [Record.mk "a b" (some 2020) none none none 2]
      2021 2021 = [] := by decide
  have h2 : common_words ([] : List Record) = [] := by
    simp [common_words, word_freq, all_words, countsList, dedupFirst]
  rw [h1, h2]
  exact ⟨rfl, rfl, rfl⟩
